import Mathlib

/-
Verification development for the lp-fe liquidity-position explorer.

The definitions below are shallow embeddings of the functions in
src/pages/PoolDetailPage.tsx and src/hooks/useVolumeHistory.ts:
JavaScript numbers are modelled as exact rationals or reals (floating
point rounding is not modelled), fallible computations return Option,
and the stateful request orchestration is modelled as an explicit
state machine driven by lists of events.
-/

/-! ## RangeController: full-range toggle and direct edits

Models the state owned by the LiquidityPriceRange component:
the two displayed bound strings, the isFullRange flag, and the
fullRangePreviousRef snapshot. -/

/-- Sentinel shown for the min bound while full range is active
(FULL_RANGE_MIN_INPUT in the source). -/
def FULL_RANGE_MIN_INPUT : String := "0"

/-- Sentinel shown for the max bound while full range is active
(FULL_RANGE_MAX_INPUT in the source). -/
def FULL_RANGE_MAX_INPUT : String := "∞"

/-- The range-controller state of LiquidityPriceRange: displayed bound
strings, the full-range flag, and the snapshot kept in
fullRangePreviousRef. -/
structure RangeState where
  rangeMin : String
  rangeMax : String
  isFullRange : Bool
  fullRangePrevious : Option (String × String)
deriving DecidableEq, Repr

/-- toggleFullRange from PoolDetailPage.tsx: entering full range
snapshots the current pair and shows the sentinels; leaving it restores
the snapshot (when present) and clears it. -/
def toggleFullRange (s : RangeState) (nextValue : Bool) : RangeState :=
  if nextValue then
    { rangeMin := FULL_RANGE_MIN_INPUT
      rangeMax := FULL_RANGE_MAX_INPUT
      isFullRange := true
      fullRangePrevious := some (s.rangeMin, s.rangeMax) }
  else
    let cleared : RangeState := { s with isFullRange := false, fullRangePrevious := none }
    match s.fullRangePrevious with
    | some previous => { cleared with rangeMin := previous.1, rangeMax := previous.2 }
    | none => cleared

/-- The character rewrite applied by the min/max input onChange handlers:
event.target.value.replace with every dot turned into a comma. -/
def dotsToCommas (typed : String) : String :=
  String.mk (typed.data.map (fun c => if c = '.' then ',' else c))

/-- The min-price input onChange handler: while isFullRange is set it only
clears the flag (it does not touch the snapshot), then stores the typed
text with dots rewritten to commas. -/
def handleRangeEditMin (s : RangeState) (typed : String) : RangeState :=
  let s1 := if s.isFullRange then { s with isFullRange := false } else s
  { s1 with rangeMin := dotsToCommas typed }

/-- The max-price input onChange handler, symmetric to the min handler. -/
def handleRangeEditMax (s : RangeState) (typed : String) : RangeState :=
  let s1 := if s.isFullRange then { s with isFullRange := false } else s
  { s1 with rangeMax := dotsToCommas typed }

/-- Claim C6: entering full range displays the "0" / "∞" sentinels and
snapshots the prior pair, and immediately exiting restores exactly the
pre-toggle (minPrice, maxPrice) strings and clears the snapshot. -/
theorem toggleFullRange_roundtrip (s : RangeState) :
    (toggleFullRange s true).rangeMin = FULL_RANGE_MIN_INPUT
    ∧ (toggleFullRange s true).rangeMax = FULL_RANGE_MAX_INPUT
    ∧ (toggleFullRange s true).isFullRange = true
    ∧ (toggleFullRange (toggleFullRange s true) false).rangeMin = s.rangeMin
    ∧ (toggleFullRange (toggleFullRange s true) false).rangeMax = s.rangeMax
    ∧ (toggleFullRange (toggleFullRange s true) false).isFullRange = false
    ∧ (toggleFullRange (toggleFullRange s true) false).fullRangePrevious = none := by
  simp [toggleFullRange]

/-- Claim C7 counterexample: editing the min bound while full range is
active does not behave like exitFullRange followed by the edit.  Starting
from ("1", "2"), toggling full range on and then typing "3" into the min
field leaves the max bound at the "∞" sentinel and keeps the snapshot,
whereas exit-then-edit would restore the max bound to "2" and clear the
snapshot. -/
theorem edit_does_not_restore_snapshot :
    handleRangeEditMin (toggleFullRange ⟨"1", "2", false, none⟩ true) "3"
      ≠ { toggleFullRange (toggleFullRange ⟨"1", "2", false, none⟩ true) false with
            rangeMin := dotsToCommas "3" } := by
  decide

/-- Claim C7 as amended: a direct edit to either bound while isFullRange
is true only clears the flag — the snapshot is neither restored nor
cleared — and then stores the typed text (dots rewritten to commas) in
the edited bound. -/
theorem edit_only_clears_flag (s : RangeState) (typed : String)
    (h : s.isFullRange = true) :
    handleRangeEditMin s typed
      = { s with isFullRange := false, rangeMin := dotsToCommas typed }
    ∧ handleRangeEditMax s typed
      = { s with isFullRange := false, rangeMax := dotsToCommas typed } := by
  constructor <;> simp [handleRangeEditMin, handleRangeEditMax, h]

/-- Witness for the amended claim C7 at a concrete full-range state. -/
theorem edit_only_clears_flag_witness :
    (RangeState.mk "0" "∞" true (some ("1", "2"))).isFullRange = true
    ∧ handleRangeEditMin ⟨"0", "∞", true, some ("1", "2")⟩ "3.5"
        = { RangeState.mk "0" "∞" true (some ("1", "2")) with
              isFullRange := false, rangeMin := dotsToCommas "3.5" } :=
  ⟨rfl, (edit_only_clears_flag ⟨"0", "∞", true, some ("1", "2")⟩ "3.5" rfl).1⟩

/-! ## Tolerant numeric parsing

Models getSafeNumber and parsePriceInput (PoolDetailPage.tsx) and
parseNullableNumber (useVolumeHistory.ts).  The JavaScript Number
conversion is modelled over exact rationals; a NaN or infinite result is
represented as none, since every call site immediately discards
non-finite values through Number.isFinite. -/

/-- Characters treated as whitespace by the JavaScript trim and the
whitespace-stripping regular expression. -/
def isJsWhitespace (c : Char) : Bool :=
  c = ' ' ∨ c = '\t' ∨ c = '\n' ∨ c = '\r'

/-- JavaScript String.prototype.trim on a character list. -/
def trimChars (l : List Char) : List Char :=
  ((l.dropWhile isJsWhitespace).reverse.dropWhile isJsWhitespace).reverse

/-- JavaScript String.prototype.trim. -/
def jsTrim (s : String) : String :=
  String.mk (trimChars s.data)

/-- Value of a list of decimal digit characters. -/
def digitsToNat (l : List Char) : ℕ :=
  l.foldl (fun acc c => acc * 10 + (c.toNat - 48)) 0

/-- Splits a character list into its leading run of decimal digits and
the remainder. -/
def spanDigits : List Char → List Char × List Char
  | [] => ([], [])
  | c :: rest =>
      if c.isDigit then
        let p := spanDigits rest
        (c :: p.1, p.2)
      else ([], c :: rest)

/-- Parses the digits of an exponent with an optional sign; the whole
remainder must consist of digits. -/
def parseExponentDigits (l : List Char) : Option ℤ :=
  let p : ℤ × List Char :=
    match l with
    | '+' :: rest => (1, rest)
    | '-' :: rest => (-1, rest)
    | rest => (1, rest)
  if p.2 ≠ [] ∧ p.2.all Char.isDigit then
    some (p.1 * digitsToNat p.2)
  else none

/-- Parses the optional exponent suffix of a decimal literal; returns the
exponent when the remainder is well formed and fully consumed. -/
def parseExponent : List Char → Option ℤ
  | [] => some 0
  | 'e' :: rest => parseExponentDigits rest
  | 'E' :: rest => parseExponentDigits rest
  | _ => none

/-- Parses an unsigned decimal literal (digits, optional fraction,
optional exponent). -/
def parseDecimal (l : List Char) : Option ℚ :=
  let ip := spanDigits l
  match ip.2 with
  | '.' :: tail =>
      let fp := spanDigits tail
      if ip.1 = [] ∧ fp.1 = [] then none
      else
        (parseExponent fp.2).map (fun e =>
          ((digitsToNat ip.1 : ℚ)
            + (digitsToNat fp.1 : ℚ) / (10 : ℚ) ^ fp.1.length) * (10 : ℚ) ^ e)
  | _ =>
      if ip.1 = [] then none
      else (parseExponent ip.2).map (fun e => (digitsToNat ip.1 : ℚ) * (10 : ℚ) ^ e)

/-- JavaScript Number(string) restricted to decimal notation: the result
when it is finite, none when the conversion yields NaN or an infinity.
Hexadecimal, octal and binary literals and the Infinity keyword, which do
not occur in this application's numeric fields, convert to none. -/
def jsNumber (s : String) : Option ℚ :=
  match trimChars s.data with
  | [] => some 0
  | '+' :: rest => parseDecimal rest
  | '-' :: rest => (parseDecimal rest).map Neg.neg
  | cs => parseDecimal cs

/-- A JavaScript value arriving in an API response: a string, a number
(none encodes NaN or an infinity), null, or undefined. -/
inductive JsVal where
  | str (s : String)
  | num (x : Option ℚ)
  | nullV
  | undefV
deriving DecidableEq

/-- JavaScript Number(value) on response values, with none for every
non-finite outcome. -/
def jsToNumber : JsVal → Option ℚ
  | .str s => jsNumber s
  | .num x => x
  | .nullV => some 0
  | .undefV => none

/-- The comma normalisation getSafeNumber applies to a trimmed string:
when it contains commas but no dot, every comma becomes a decimal dot;
otherwise commas are removed as thousands separators. -/
def safeNormalize (s : String) : String :=
  let trimmed := trimChars s.data
  if trimmed.contains ',' ∧ ¬ trimmed.contains '.' then
    String.mk (trimmed.map (fun c => if c = ',' then '.' else c))
  else
    String.mk (trimmed.filter (fun c => c ≠ ','))

/-- getSafeNumber from PoolDetailPage.tsx: strings are trimmed and
comma-normalised before conversion, and every failure — empty string,
NaN, or an infinity — is coerced to 0. -/
def getSafeNumber (value : JsVal) : ℚ :=
  match value with
  | .str s =>
      if trimChars s.data = [] then 0
      else (jsNumber (safeNormalize s)).getD 0
  | v => (jsToNumber v).getD 0

/-- parseNullableNumber from useVolumeHistory.ts: null and undefined map
to none, and a non-finite conversion result also maps to none. -/
def parseNullableNumber (value : JsVal) : Option ℚ :=
  match value with
  | .nullV => none
  | .undefV => none
  | v => jsToNumber v

/-- Replaces the first comma with a dot, as the single-match
String.prototype.replace call in parsePriceInput does. -/
def replaceFirstComma : List Char → List Char
  | [] => []
  | ',' :: rest => '.' :: rest
  | c :: rest => c :: replaceFirstComma rest

/-- parsePriceInput from PoolDetailPage.tsx: trims, rejects the empty
string, strips all whitespace, turns the first comma into a dot and
converts; none models the NaN returned on failure. -/
def parsePriceInput (value : String) : Option ℚ :=
  let trimmed := trimChars value.data
  if trimmed = [] then none
  else jsNumber (String.mk (replaceFirstComma (trimmed.filter (fun c => ¬ isJsWhitespace c))))

/-- Claim C9 counterexample: getSafeNumber coerces an unparseable string
to 0 rather than treating it as absent, while parseNullableNumber both
returns none on the same input and rejects a comma decimal separator
that getSafeNumber accepts. -/
theorem getSafeNumber_coerces_to_zero :
    getSafeNumber (.str "abc") = 0
    ∧ parseNullableNumber (.str "abc") = none
    ∧ getSafeNumber (.str "1,5") = 3 / 2
    ∧ parseNullableNumber (.str "1,5") = none := by
  refine ⟨by decide, by decide, ?_, by decide⟩
  simp +decide [getSafeNumber, safeNormalize, jsNumber, trimChars, isJsWhitespace,
    parseDecimal, spanDigits, parseExponent, digitsToNat]
  norm_num

/-- Claim C9 as amended: parseNullableNumber treats null, undefined and
every non-finite conversion as absent (none) — though it does not accept
a comma decimal separator — while getSafeNumber accepts comma decimal
separators but coerces empty and non-finite inputs to 0 instead of
treating them as absent. -/
theorem numeric_parsing_amended (v : JsVal) (s : String) :
    (parseNullableNumber v = none ↔ v = .nullV ∨ v = .undefV ∨ jsToNumber v = none)
    ∧ (jsNumber (safeNormalize s) = none → getSafeNumber (.str s) = 0)
    ∧ getSafeNumber (.num none) = 0
    ∧ getSafeNumber (.str "1,5") = 3 / 2
    ∧ parseNullableNumber (.str "1,5") = none := by
  refine ⟨?_, ?_, by decide, ?_, by decide⟩
  · cases v <;> simp [parseNullableNumber, jsToNumber]
  · intro h
    simp [getSafeNumber, h]
  · simp +decide [getSafeNumber, safeNormalize, jsNumber, trimChars, isJsWhitespace,
      parseDecimal, spanDigits, parseExponent, digitsToNat]
    norm_num

/-- Witness for the amended claim C9: a string that fails to convert is
coerced to 0 by getSafeNumber. -/
theorem numeric_parsing_amended_witness :
    jsNumber (safeNormalize "abc") = none ∧ getSafeNumber (.str "abc") = 0 :=
  ⟨by decide, (numeric_parsing_amended (.num none) "abc").2.1 (by decide)⟩

/-! ## Range commit on blur

Models commitRangeValue and the min/max input onBlur handlers of
LiquidityPriceRange.  The successful branch — snapping the parsed value
through snapPriceToTick and formatting it — is abstracted as an
arbitrary function snapFormat, since the claims here concern only the
guard branches that leave the stored value untouched. -/

/-- commitRangeValue from PoolDetailPage.tsx: empty input and parse
failures leave the stored value unchanged; a successfully parsed value is
snapped and formatted (abstracted as snapFormat). -/
def commitRangeValue (snapFormat : Bool → ℚ → String) (value : String)
    (roundDown : Bool) (stored : String) : String :=
  if value = "" then stored
  else
    match parsePriceInput value with
    | none => stored
    | some parsed => snapFormat roundDown parsed

/-- The guard initialValue !== null && value === initialValue of the
onBlur handlers. -/
def focusGuard (initialValue : Option String) (content : String) : Bool :=
  match initialValue with
  | some iv => content = iv
  | none => false

/-- The min/max input onBlur handler: returns the stored value untouched
unless the field was edited and its content differs from the value
captured on focus, in which case it commits the content. -/
def handleRangeBlur (snapFormat : Bool → ℚ → String) (didEdit : Bool)
    (initialValue : Option String) (content : String) (roundDown : Bool)
    (stored : String) : String :=
  if ¬ didEdit then stored
  else if focusGuard initialValue content then stored
  else commitRangeValue snapFormat content roundDown stored

/-- Claim C8: committing a range field on blur leaves the stored value
unchanged when the content equals the value captured on focus, and is a
no-op when the typed value fails to parse. -/
theorem rangeBlur_frame_conditions (snapFormat : Bool → ℚ → String)
    (didEdit : Bool) (initialValue : Option String) (content : String)
    (roundDown : Bool) (stored : String) :
    (initialValue = some content
      → handleRangeBlur snapFormat didEdit initialValue content roundDown stored = stored)
    ∧ (parsePriceInput content = none
      → handleRangeBlur snapFormat didEdit initialValue content roundDown stored = stored) := by
  constructor
  · rintro rfl
    simp [handleRangeBlur, focusGuard]
  · intro h
    cases didEdit
    · simp [handleRangeBlur]
    · simp only [handleRangeBlur, commitRangeValue, h]
      split <;> simp

/-- Witness for claim C8: an untouched field value is preserved and an
unparseable one commits nothing. -/
theorem rangeBlur_frame_conditions_witness :
    ((some "2833,5" : Option String) = some "2833,5"
      ∧ handleRangeBlur (fun _ _ => "") true (some "2833,5") "2833,5" true "2833,5"
          = "2833,5")
    ∧ (parsePriceInput "x2" = none
      ∧ handleRangeBlur (fun _ _ => "") true (some "1") "x2" true "5" = "5") :=
  ⟨⟨rfl, (rangeBlur_frame_conditions (fun _ _ => "") true (some "2833,5") "2833,5" true
      "2833,5").1 rfl⟩,
   ⟨by decide, (rangeBlur_frame_conditions (fun _ _ => "") true (some "1") "x2" true
      "5").2 (by decide)⟩⟩

/-! ## Request orchestration: the Allocation stage and the APR key guard

Models the mutable state touched by fetchAllocate and read by
fetchSimulateApr: allocateResultKeyRef (the last-accepted allocation
request key), allocateData, and the set of allocation fetches currently
in flight.  A run of the component is a list of events: issuing an
allocation fetch (which captures its request key, resets
allocateResultKeyRef to null and adds the request to the in-flight set),
a successful response (setAllocateData plus storing the captured key),
and a failed response (clearing data and key).  fetchAllocate never
aborts an in-flight call — only the pending debounce timer is cleared —
so several requests can be in flight at once and responses can arrive in
any order; event-list validity only requires that responses belong to
requests actually in flight.  Request keys and payloads are abstracted
as naturals. -/

/-- The allocation-stage state: allocateResultKeyRef, allocateData, and
the in-flight requests with their captured request keys, tagged by a
request identifier. -/
structure AllocState where
  allocKey : Option ℕ
  allocData : Option ℕ
  inflight : List (ℕ × ℕ)
deriving DecidableEq, Repr

/-- The initial allocation-stage state: no accepted key, no data, nothing
in flight. -/
def allocInit : AllocState := ⟨none, none, []⟩

/-- An observable event of the allocation stage: issuing a fetch with a
captured request key, a successful response carrying its data, or a
failed response. -/
inductive AllocEvent where
  | issue (id key : ℕ)
  | ok (id key data : ℕ)
  | err (id : ℕ)
deriving DecidableEq, Repr

/-- One step of the allocation stage.  issue mirrors the head of
fetchAllocate (allocateResultKeyRef.current = null, request goes out);
ok mirrors the success branch (setAllocateData(data);
allocateResultKeyRef.current = requestKey); err mirrors the catch branch
(setAllocateData(null); allocateResultKeyRef.current = null). -/
def allocStep (s : AllocState) : AllocEvent → AllocState
  | .issue id key =>
      { allocKey := none, allocData := s.allocData, inflight := (id, key) :: s.inflight }
  | .ok id key data =>
      if s.inflight.contains (id, key) then
        { allocKey := some key, allocData := some data
          inflight := s.inflight.filter (fun p => p.1 != id) }
      else s
  | .err id =>
      if s.inflight.any (fun p => p.1 == id) then
        { allocKey := none, allocData := none
          inflight := s.inflight.filter (fun p => p.1 != id) }
      else s

/-- Runs a list of allocation-stage events from a state. -/
def allocRun (s : AllocState) (t : List AllocEvent) : AllocState :=
  t.foldl allocStep s

/-- Validity of one event against a state: a newly issued request has a
fresh identifier, and every response belongs to a request currently in
flight. -/
def allocEventOk (s : AllocState) : AllocEvent → Bool
  | .issue id _ => ¬ s.inflight.any (fun p => p.1 == id)
  | .ok id key _ => s.inflight.contains (id, key)
  | .err id => s.inflight.any (fun p => p.1 == id)

/-- Validity of an event list: every event is valid in the state it is
applied to. -/
def allocValid (s : AllocState) : List AllocEvent → Bool
  | [] => true
  | e :: rest => allocEventOk s e && allocValid (allocStep s e) rest

/-- The key recorded by the most recent allocation outcome: a successful
response records its captured key, while issuing a fetch or a failure
resets the record to null. -/
def lastKeyOutcome (acc : Option ℕ) : List AllocEvent → Option ℕ
  | [] => acc
  | .issue _ _ :: rest => lastKeyOutcome none rest
  | .ok _ key _ :: rest => lastKeyOutcome (some key) rest
  | .err _ :: rest => lastKeyOutcome none rest

/-- The guard at the head of fetchSimulateApr: the APR request is only
issued when allocateResultKeyRef.current equals the request key built
from the current inputs. -/
def aprKeyGuardPasses (s : AllocState) (currentKey : ℕ) : Bool :=
  s.allocKey == some currentKey

/-- On every valid run, allocateResultKeyRef holds exactly the key of the
most recent allocation outcome. -/
theorem allocRun_allocKey (t : List AllocEvent) :
    ∀ s : AllocState, allocValid s t = true
      → (allocRun s t).allocKey = lastKeyOutcome s.allocKey t := by
  induction t with
  | nil => intro s _; rfl
  | cons e rest ih =>
      intro s hv
      rw [allocValid, Bool.and_eq_true] at hv
      cases e with
      | issue id key =>
          have hrec := ih (allocStep s (.issue id key)) hv.2
          rw [show (allocStep s (.issue id key)).allocKey = none from rfl] at hrec
          exact hrec
      | ok id key data =>
          have hm : s.inflight.contains (id, key) = true := hv.1
          have hkey : (allocStep s (.ok id key data)).allocKey = some key := by
            simp only [allocStep, hm, if_true]
          have hrec := ih (allocStep s (.ok id key data)) hv.2
          rw [hkey] at hrec
          exact hrec
      | err id =>
          have hm : s.inflight.any (fun p => p.1 == id) = true := hv.1
          have hkey : (allocStep s (.err id)).allocKey = none := by
            simp only [allocStep, hm, if_true]
          have hrec := ih (allocStep s (.err id)) hv.2
          rw [hkey] at hrec
          exact hrec

/-- Claim C2 counterexample: an AprSimulation can be issued while an
Allocation fetch is pending.  Request 0 and request 1 are issued with the
same request key 5 (request 1 before request 0's response arrives, since
in-flight calls are not aborted); request 0 then completes successfully,
re-arming allocateResultKeyRef = 5 — so the APR key guard passes for the
current key 5 even though request 1 is still pending. -/
theorem aprGuard_passes_while_pending :
    allocValid allocInit [.issue 0 5, .issue 1 5, .ok 0 5 7] = true
    ∧ (allocRun allocInit [.issue 0 5, .issue 1 5, .ok 0 5 7]).inflight ≠ []
    ∧ aprKeyGuardPasses (allocRun allocInit [.issue 0 5, .issue 1 5, .ok 0 5 7]) 5
        = true := by
  decide

/-- Claim C2 as amended: an AprSimulation request passes the key guard
for the current RequestKey exactly when the most recent allocation
outcome is a successful completion whose captured key equals it.  In
particular, while an Allocation fetch is pending and no other allocation
has completed successfully since it was issued, the guard fails; but a
successful response from an older overlapping fetch re-arms the guard
even while a newer fetch is pending. -/
theorem aprGuard_matches_last_allocation (t : List AllocEvent) (currentKey : ℕ)
    (hv : allocValid allocInit t = true) :
    aprKeyGuardPasses (allocRun allocInit t) currentKey = true
      ↔ lastKeyOutcome none t = some currentKey := by
  unfold aprKeyGuardPasses
  rw [allocRun_allocKey t allocInit hv]
  simp [allocInit]

/-- Witness for the amended claim C2 on a concrete valid run: after a
single completed allocation with key 5, the APR guard passes exactly for
current key 5. -/
theorem aprGuard_matches_last_allocation_witness :
    allocValid allocInit [.issue 0 5, .ok 0 5 7] = true
    ∧ (aprKeyGuardPasses (allocRun allocInit [.issue 0 5, .ok 0 5 7]) 5 = true
        ↔ lastKeyOutcome none [.issue 0 5, .ok 0 5 7] = some 5) :=
  ⟨by decide, aprGuard_matches_last_allocation [.issue 0 5, .ok 0 5 7] 5 (by decide)⟩

/-- Claim C3 counterexample: a superseded request's result overwrites a
later request's result.  Request 0 is issued, then request 1 (which
supersedes it); request 1's response (data 200) arrives first and then
request 0's response (data 100) arrives — fetchAllocate applies every
response unconditionally, so the stage ends holding the superseded
request's data 100.  No AbortController is attached to fetchAllocate,
fetchDistribution or fetchSimulateApr; only pending debounce timers are
cleared. -/
theorem stale_allocation_overwrites_newer :
    allocValid allocInit [.issue 0 5, .issue 1 5, .ok 1 5 200, .ok 0 5 100] = true
    ∧ (allocRun allocInit [.issue 0 5, .issue 1 5, .ok 1 5 200, .ok 0 5 100]).allocData
        = some 100 := by
  decide

/-- Serialized validity: like allocValid, but a new request may only be
issued while nothing is in flight — the regime in which the debounce
timers effectively prevent overlapping calls. -/
def allocSerialOk (s : AllocState) : AllocEvent → Bool
  | .issue _ _ => s.inflight.isEmpty
  | .ok id key _ => s.inflight.contains (id, key)
  | .err id => s.inflight.any (fun p => p.1 == id)

/-- Serialized validity of an event list. -/
def allocSerial (s : AllocState) : List AllocEvent → Bool
  | [] => true
  | e :: rest => allocSerialOk s e && allocSerial (allocStep s e) rest

/-- Checks that every applied response in a run belongs to the sole
in-flight — hence latest-issued — request at the moment it is applied:
no response of a superseded request is ever applied over a later one. -/
def noStaleApply (s : AllocState) : List AllocEvent → Bool
  | [] => true
  | e :: rest =>
      (match e with
       | .ok id key _ => s.inflight == [(id, key)]
       | _ => true) && noStaleApply (allocStep s e) rest

/-- Claim C3 as amended: each stage clears only its pending debounce
timer, not its in-flight call, so the no-overwrite guarantee holds
exactly in the serialized regime: when no request is issued while
another is in flight, every applied result belongs to the latest-issued
request. -/
theorem serial_requests_no_stale_apply (t : List AllocEvent) :
    ∀ s : AllocState, allocSerial s t = true → s.inflight.length ≤ 1
      → noStaleApply s t = true := by
  induction t with
  | nil => intro s _ _; rfl
  | cons e rest ih =>
      intro s hv hlen
      rw [allocSerial, Bool.and_eq_true] at hv
      cases e with
      | issue id key =>
          have hempty : s.inflight.isEmpty = true := hv.1
          rw [List.isEmpty_iff] at hempty
          show (true && noStaleApply (allocStep s (.issue id key)) rest) = true
          rw [Bool.true_and]
          exact ih _ hv.2 (by simp [allocStep, hempty])
      | ok id key data =>
          have hm : s.inflight.contains (id, key) = true := hv.1
          have hmem : (id, key) ∈ s.inflight := by simpa using hm
          have hsingle : s.inflight = [(id, key)] := by
            cases hinf : s.inflight with
            | nil => rw [hinf] at hmem; cases hmem
            | cons a l =>
                rw [hinf] at hlen hmem
                have hl : l = [] := by
                  cases l with
                  | nil => rfl
                  | cons b m => simp at hlen
                subst hl
                simp at hmem
                rw [hmem]
          show ((s.inflight == [(id, key)])
            && noStaleApply (allocStep s (.ok id key data)) rest) = true
          rw [Bool.and_eq_true]
          exact ⟨by simp [hsingle], ih _ hv.2 (by simp [allocStep, hm, hsingle])⟩
      | err id =>
          have hm : s.inflight.any (fun p => p.1 == id) = true := hv.1
          show (true && noStaleApply (allocStep s (.err id)) rest) = true
          rw [Bool.true_and]
          refine ih _ hv.2 ?_
          simp only [allocStep, hm, if_true]
          calc (s.inflight.filter (fun p => p.1 != id)).length
              ≤ s.inflight.length := List.length_filter_le _ _
            _ ≤ 1 := hlen

/-- Witness for the amended claim C3 on a concrete serialized run of two
back-to-back allocation fetches. -/
theorem serial_requests_no_stale_apply_witness :
    allocSerial allocInit [.issue 0 5, .ok 0 5 100, .issue 1 6, .ok 1 6 200] = true
    ∧ allocInit.inflight.length ≤ 1
    ∧ noStaleApply allocInit [.issue 0 5, .ok 0 5 100, .issue 1 6, .ok 1 6 200] = true :=
  ⟨by decide, by decide,
    serial_requests_no_stale_apply [.issue 0 5, .ok 0 5 100, .issue 1 6, .ok 1 6 200]
      allocInit (by decide) (by decide)⟩

/-! ## ViewportController: the LiquidityChart pan/zoom engine

Models the zoom state of LiquidityChart (zoomRangeTicks /
zoomCenterTick), the derived clamped view window, and the two user
operations: the wheel handler (zoom by 0.85 / 1.15 about the pointer)
and the drag-pan handler.  Tick coordinates are exact rationals; the
data bounds dataMinTick / dataMaxTick are parameters.  minZoomRange is
the constant 1 of the source. -/

/-- The zoom state owned by LiquidityChart: both fields start as null
and are set by the wheel and pan handlers. -/
structure LiquidityViewport where
  zoomRangeTicks : Option ℚ
  zoomCenterTick : Option ℚ
deriving DecidableEq, Repr

/-- dataRange = max(1, dataMaxTick - dataMinTick). -/
def dataRangeOf (dMin dMax : ℚ) : ℚ := max 1 (dMax - dMin)

/-- currentRange = min(dataRange, max(minZoomRange, zoomRangeTicks ??
dataRange)) with minZoomRange = 1. -/
def currentRangeOf (dMin dMax : ℚ) (s : LiquidityViewport) : ℚ :=
  min (dataRangeOf dMin dMax) (max 1 (s.zoomRangeTicks.getD (dataRangeOf dMin dMax)))

/-- center = zoomCenterTick ?? midpoint of the data bounds. -/
def centerOf (dMin dMax : ℚ) (s : LiquidityViewport) : ℚ :=
  s.zoomCenterTick.getD ((dMin + dMax) / 2)

/-- The two sequential boundary clamps applied to a candidate window of
width r: push the window right if it starts before dataMinTick, then
push it left if it (after the first clamp) ends past dataMaxTick.  The
second source if tests the window updated by the first, which the nested
conditional reproduces. -/
def clampWindow (dMin dMax r vMin vMax : ℚ) : ℚ × ℚ :=
  if vMin < dMin then
    if dMin + r > dMax then (dMax - r, dMax) else (dMin, dMin + r)
  else
    if vMax > dMax then (dMax - r, dMax) else (vMin, vMax)

/-- The derived visible window [viewMinTick, viewMaxTick]. -/
def viewOf (dMin dMax : ℚ) (s : LiquidityViewport) : ℚ × ℚ :=
  let r := currentRangeOf dMin dMax s
  let c := centerOf dMin dMax s
  clampWindow dMin dMax r (c - r / 2) (c + r / 2)

/-- A user operation on the chart viewport: a wheel step at a pointer
ratio (zooming in or out), or a drag-pan by a ratio of the view width. -/
inductive ViewportOp where
  | wheel (pointerRatio : ℚ) (zoomIn : Bool)
  | drag (deltaRatio : ℚ)

/-- Applies one viewport operation, mirroring the onWheel listener and
the mouse-move pan handler of LiquidityChart.  The wheel step scales the
current view range by 0.85 (zoom in) or 1.15 (zoom out), clamps it to
[1, dataRange], re-anchors the window about the pointer and clamps it to
the data bounds; the pan moves the window center by -deltaRatio times
the view range and clamps the center so the window stays inside the
data bounds. -/
def applyOp (dMin dMax : ℚ) (s : LiquidityViewport) : ViewportOp → LiquidityViewport
  | .wheel ratio zoomIn =>
      let v := viewOf dMin dMax s
      let zoomFactor : ℚ := if zoomIn then 85 / 100 else 115 / 100
      let nextRange := max 1 (min (dataRangeOf dMin dMax) ((v.2 - v.1) * zoomFactor))
      let anchorTick := v.1 + ratio * (v.2 - v.1)
      let w := clampWindow dMin dMax nextRange
        (anchorTick - ratio * nextRange) (anchorTick - ratio * nextRange + nextRange)
      { zoomRangeTicks := some nextRange, zoomCenterTick := some ((w.1 + w.2) / 2) }
  | .drag deltaRatio =>
      let v := viewOf dMin dMax s
      let range := v.2 - v.1
      let deltaTick := deltaRatio * range
      let halfRange := range / 2
      let c0 := v.1 + halfRange
      let c1 := c0 - deltaTick
      let c2 := if c1 - halfRange < dMin then dMin + halfRange else c1
      let c3 := if c2 + halfRange > dMax then dMax - halfRange else c2
      { zoomRangeTicks := some range, zoomCenterTick := some c3 }

/-- Runs a list of viewport operations. -/
def runOps (dMin dMax : ℚ) (s : LiquidityViewport) (ops : List ViewportOp) :
    LiquidityViewport :=
  ops.foldl (applyOp dMin dMax) s

/-- The invariant claimed for the zoom state: whenever zoomRangeTicks is
set, it lies in [minZoom, dataMaxTick - dataMinTick] with minZoom = 1. -/
def zoomInvariant (dMin dMax : ℚ) (s : LiquidityViewport) : Prop :=
  ∀ z : ℚ, s.zoomRangeTicks = some z → 1 ≤ z ∧ z ≤ dMax - dMin

/-- Under non-degenerate data bounds the clamped dataRange equals the
plain width. -/
theorem dataRangeOf_eq {dMin dMax : ℚ} (h : 1 ≤ dMax - dMin) :
    dataRangeOf dMin dMax = dMax - dMin :=
  max_eq_right h

/-- The derived current range always lies in [1, dataMaxTick -
dataMinTick] when the bounds are non-degenerate. -/
theorem currentRangeOf_bounds {dMin dMax : ℚ} (h : 1 ≤ dMax - dMin)
    (s : LiquidityViewport) :
    1 ≤ currentRangeOf dMin dMax s ∧ currentRangeOf dMin dMax s ≤ dMax - dMin := by
  unfold currentRangeOf
  rw [dataRangeOf_eq h]
  exact ⟨le_min h (le_max_left _ _), min_le_left _ _⟩

/-- clampWindow keeps a window of width r inside the data bounds. -/
theorem clampWindow_mem {dMin dMax r a b : ℚ} (hr0 : 0 ≤ r)
    (hrD : r ≤ dMax - dMin) (hab : b - a = r) :
    dMin ≤ (clampWindow dMin dMax r a b).1
    ∧ (clampWindow dMin dMax r a b).2 ≤ dMax
    ∧ (clampWindow dMin dMax r a b).1 ≤ (clampWindow dMin dMax r a b).2 := by
  unfold clampWindow
  split_ifs <;>
    exact ⟨by dsimp only; linarith, by dsimp only; linarith, by dsimp only; linarith⟩

/-- clampWindow preserves the window width. -/
theorem clampWindow_width {dMin dMax r a b : ℚ} (hab : b - a = r) :
    (clampWindow dMin dMax r a b).2 - (clampWindow dMin dMax r a b).1 = r := by
  unfold clampWindow
  split_ifs <;> dsimp only <;> linarith

/-- The derived view window has the derived current range as its width. -/
theorem viewOf_width {dMin dMax : ℚ} (s : LiquidityViewport) :
    (viewOf dMin dMax s).2 - (viewOf dMin dMax s).1 = currentRangeOf dMin dMax s :=
  clampWindow_width (by ring)

/-- The derived view window stays inside the data bounds for every zoom
state when the bounds are non-degenerate. -/
theorem viewOf_mem {dMin dMax : ℚ} (h : 1 ≤ dMax - dMin) (s : LiquidityViewport) :
    dMin ≤ (viewOf dMin dMax s).1
    ∧ (viewOf dMin dMax s).2 ≤ dMax
    ∧ (viewOf dMin dMax s).1 ≤ (viewOf dMin dMax s).2 := by
  have hb := currentRangeOf_bounds h s
  exact clampWindow_mem (by linarith [hb.1]) hb.2 (by ring)

/-- Every operation leaves the zoom range inside [1, dataMaxTick -
dataMinTick]. -/
theorem applyOp_zoomInvariant {dMin dMax : ℚ} (h : 1 ≤ dMax - dMin)
    (s : LiquidityViewport) (op : ViewportOp) :
    zoomInvariant dMin dMax (applyOp dMin dMax s op) := by
  cases op with
  | wheel ratio zoomIn =>
      intro z hz
      have hzz : z = max 1 (min (dataRangeOf dMin dMax)
          (((viewOf dMin dMax s).2 - (viewOf dMin dMax s).1)
            * (if zoomIn then (85 : ℚ) / 100 else 115 / 100))) := by
        simpa [applyOp] using hz.symm
      rw [hzz]
      constructor
      · exact le_max_left _ _
      · rw [dataRangeOf_eq h] at *
        exact max_le h (min_le_left _ _)
  | drag deltaRatio =>
      intro z hz
      have hzz : z = (viewOf dMin dMax s).2 - (viewOf dMin dMax s).1 := by
        simpa [applyOp] using hz.symm
      rw [hzz, viewOf_width s]
      exact currentRangeOf_bounds h s

/-- Claim C5: after any finite sequence of wheel and drag operations the
zoom range stays within [minZoom, dataMaxTick - dataMinTick] (minZoom =
1) and the visible window stays inside the data bounds.  Each wheel step
multiplies the current view range by 0.85 or 1.15 before this clamping,
as recorded in applyOp. -/
theorem viewport_invariants (dMin dMax : ℚ) (h : 1 ≤ dMax - dMin)
    (s₀ : LiquidityViewport) (hs : zoomInvariant dMin dMax s₀)
    (ops : List ViewportOp) :
    zoomInvariant dMin dMax (runOps dMin dMax s₀ ops)
    ∧ dMin ≤ (viewOf dMin dMax (runOps dMin dMax s₀ ops)).1
    ∧ (viewOf dMin dMax (runOps dMin dMax s₀ ops)).2 ≤ dMax
    ∧ (viewOf dMin dMax (runOps dMin dMax s₀ ops)).1
        ≤ (viewOf dMin dMax (runOps dMin dMax s₀ ops)).2 := by
  refine ⟨?_, viewOf_mem h _⟩
  induction ops generalizing s₀ with
  | nil => exact hs
  | cons op rest ih =>
      exact ih (applyOp dMin dMax s₀ op) (applyOp_zoomInvariant h s₀ op)

/-- Witness for claim C5: a wheel zoom-in followed by a drag on concrete
bounds [0, 10] starting from the initial null zoom state. -/
theorem viewport_invariants_witness :
    (1 : ℚ) ≤ 10 - 0
    ∧ zoomInvariant 0 10 ⟨none, none⟩
    ∧ (zoomInvariant 0 10 (runOps 0 10 ⟨none, none⟩ [.wheel (1/2) true, .drag (3/10)])
        ∧ (0 : ℚ) ≤ (viewOf 0 10 (runOps 0 10 ⟨none, none⟩
            [.wheel (1/2) true, .drag (3/10)])).1
        ∧ (viewOf 0 10 (runOps 0 10 ⟨none, none⟩ [.wheel (1/2) true, .drag (3/10)])).2
            ≤ 10
        ∧ (viewOf 0 10 (runOps 0 10 ⟨none, none⟩ [.wheel (1/2) true, .drag (3/10)])).1
            ≤ (viewOf 0 10 (runOps 0 10 ⟨none, none⟩
                [.wheel (1/2) true, .drag (3/10)])).2) := by
  refine ⟨by norm_num, ?_, ?_⟩
  · intro z hz
    simp at hz
  · exact viewport_invariants 0 10 (by norm_num) ⟨none, none⟩
      (by intro z hz; simp at hz) [.wheel (1/2) true, .drag (3/10)]

/-! ## TickMath: price/tick conversion

Models getPriceTick and snapPriceToTick from PoolDetailPage.tsx over the
exact reals (Math.log, Math.pow and the tick arithmetic are exact here;
IEEE rounding is not modelled).  The Number.isFinite guards of the
source are vacuous over ℝ and drop out; the sign guards remain.  Math.pow
with a real exponent is Real.rpow, Math.round is Mathlib's round
(both round halves up). -/

/-- UNISWAP_MIN_TICK from PoolDetailPage.tsx. -/
def UNISWAP_MIN_TICK : ℝ := -887272

/-- UNISWAP_MAX_TICK from PoolDetailPage.tsx. -/
def UNISWAP_MAX_TICK : ℝ := 887272

/-- rawTick = Math.log(price / decimalAdjust) / Math.log(1.0001), the
shared head of getPriceTick, snapPriceToTick and stepRangeValue. -/
noncomputable def rawTickOf (decimalAdjust price : ℝ) : ℝ :=
  Real.log (price / decimalAdjust) / Real.log 1.0001

/-- The tick selected by snapPriceToTick from tickFloat = rawTick /
tickSpacing: the nearest integer when within EPS = 1e-8 of one, else
floor or ceil per roundDown. -/
noncomputable def tickSel (tickFloat : ℝ) (roundDown : Bool) : ℤ :=
  if |tickFloat - (round tickFloat : ℝ)| < 1e-8 then round tickFloat
  else if roundDown then ⌊tickFloat⌋ else ⌈tickFloat⌉

/-- snappedTick of snapPriceToTick: the selected tick times the
spacing. -/
noncomputable def snappedTickOf (tickSpacing decimalAdjust price : ℝ)
    (roundDown : Bool) : ℝ :=
  (tickSel (rawTickOf decimalAdjust price / tickSpacing) roundDown : ℝ) * tickSpacing

/-- snapPriceToTick from PoolDetailPage.tsx (tickSpacing, decimalAdjust
and the min/max tick bounds are closure values there): rejects
non-positive price or spacing and a non-positive adjusted price, snaps
rawTick / tickSpacing with the EPS = 1e-8 idempotence guard, clamps the
snapped tick to [UNISWAP_MIN_TICK, UNISWAP_MAX_TICK], and returns
Math.pow(1.0001, clampedTick) * decimalAdjust. -/
noncomputable def snapPriceToTick (tickSpacing decimalAdjust price : ℝ)
    (roundDown : Bool) : Option ℝ :=
  if price ≤ 0 ∨ tickSpacing ≤ 0 then none
  else if price / decimalAdjust ≤ 0 then none
  else some ((1.0001 : ℝ)
    ^ (min UNISWAP_MAX_TICK (max UNISWAP_MIN_TICK
        (snappedTickOf tickSpacing decimalAdjust price roundDown)))
    * decimalAdjust)

/-- getPriceTick from PoolDetailPage.tsx: rejects non-positive price,
spacing or decimal adjust and a non-positive adjusted price, snaps
rawTick to a lower or upper multiple of the spacing per roundDown (with
no EPS guard), and clamps the result to the Uniswap tick bounds. -/
noncomputable def getPriceTick (price tickSpacing decimalAdjust : ℝ)
    (roundDown : Bool) : Option ℝ :=
  if price ≤ 0 ∨ tickSpacing ≤ 0 ∨ decimalAdjust ≤ 0 then none
  else if price / decimalAdjust ≤ 0 then none
  else some (min UNISWAP_MAX_TICK (max UNISWAP_MIN_TICK
    ((if roundDown then (⌊rawTickOf decimalAdjust price / tickSpacing⌋ : ℝ)
      else (⌈rawTickOf decimalAdjust price / tickSpacing⌉ : ℝ)) * tickSpacing)))

/-- The logarithm of the tick base is positive. -/
theorem log_tickBase_pos : 0 < Real.log 1.0001 :=
  Real.log_pos (by norm_num)

/-- rawTick is a left inverse of the price map: feeding
1.0001 ^ x * decimalAdjust back through rawTick returns x. -/
theorem rawTickOf_rpow (x : ℝ) {d : ℝ} (hd : d ≠ 0) :
    rawTickOf d ((1.0001 : ℝ) ^ x * d) = x := by
  unfold rawTickOf
  rw [mul_div_cancel_right₀ _ hd, Real.log_rpow (by norm_num)]
  exact mul_div_cancel_right₀ x (ne_of_gt log_tickBase_pos)

/-- tickSel is the identity on integer tick floats. -/
theorem tickSel_intCast (m : ℤ) (r : Bool) : tickSel ((m : ℝ)) r = m := by
  unfold tickSel
  rw [round_intCast, sub_self, abs_zero, if_pos (by norm_num)]

/-- Evaluation of getPriceTick on an exact tick-aligned price: for an
integer tick t = k * s within the Uniswap bounds, the price
1.0001 ^ t * d converts back to exactly t. -/
theorem getPriceTick_exact_pow (t k s : ℤ) (d : ℝ) (hs : 0 < s)
    (hk : t = k * s) (hlow : -887272 ≤ t) (hhigh : t ≤ 887272) (hd : 0 < d) :
    getPriceTick ((1.0001 : ℝ) ^ (t : ℝ) * d) (s : ℝ) d true = some (t : ℝ) := by
  have hs0 : (0 : ℝ) < (s : ℝ) := by exact_mod_cast hs
  have hprice : (0 : ℝ) < (1.0001 : ℝ) ^ (t : ℝ) * d :=
    mul_pos (Real.rpow_pos_of_pos (by norm_num) _) hd
  unfold getPriceTick
  rw [if_neg (by push_neg; exact ⟨hprice, hs0, hd⟩), if_neg (not_le.mpr (div_pos hprice hd))]
  rw [rawTickOf_rpow _ (ne_of_gt hd)]
  have hdiv : (t : ℝ) / (s : ℝ) = (k : ℝ) := by
    rw [hk]
    push_cast
    exact mul_div_cancel_right₀ _ (ne_of_gt hs0)
  rw [if_pos rfl, hdiv, Int.floor_intCast]
  have hmul : (k : ℝ) * (s : ℝ) = (t : ℝ) := by
    rw [hk]; push_cast; ring
  rw [hmul]
  have hl : UNISWAP_MIN_TICK ≤ (t : ℝ) := by
    unfold UNISWAP_MIN_TICK; exact_mod_cast hlow
  have hh : (t : ℝ) ≤ UNISWAP_MAX_TICK := by
    unfold UNISWAP_MAX_TICK; exact_mod_cast hhigh
  rw [max_eq_right hl, min_eq_right hh]

/-- Claim C4: for every tick t that is an exact multiple of the
tickSpacing s and lies within [-887272, 887272], converting it to a
price via 1.0001 ^ t * decimalAdjust and back through getPriceTick with
roundDown = true returns exactly t. -/
theorem tick_price_roundtrip (t s : ℤ) (d : ℝ) (hs : 0 < s) (hdvd : s ∣ t)
    (hlow : -887272 ≤ t) (hhigh : t ≤ 887272) (hd : 0 < d) :
    getPriceTick ((1.0001 : ℝ) ^ (t : ℝ) * d) (s : ℝ) d true = some (t : ℝ) := by
  obtain ⟨k, hk⟩ := hdvd
  exact getPriceTick_exact_pow t k s d hs (by rw [hk]; ring) hlow hhigh hd

/-- Witness for claim C4 at t = 60, s = 60, d = 1. -/
theorem tick_price_roundtrip_witness :
    (0 : ℤ) < 60 ∧ (60 : ℤ) ∣ 60 ∧ (0 : ℝ) < 1
    ∧ getPriceTick ((1.0001 : ℝ) ^ ((60 : ℤ) : ℝ) * 1) ((60 : ℤ) : ℝ) 1 true
        = some ((60 : ℤ) : ℝ) :=
  ⟨by norm_num, dvd_refl 60, by norm_num,
    tick_price_roundtrip 60 60 1 (by norm_num) (dvd_refl 60) (by norm_num)
      (by norm_num) (by norm_num)⟩

/-- Claim C10: whenever getPriceTick returns a tick, that tick lies in
[UNISWAP_MIN_TICK, UNISWAP_MAX_TICK] and is either an exact integer
multiple of the tickSpacing or equal to one of the clamp bounds (a
clamped result need not be spacing-aligned, since clamping happens after
snapping). -/
theorem getPriceTick_range_characterization (price s d : ℝ) (r : Bool) (tick : ℝ)
    (h : getPriceTick price s d r = some tick) :
    (UNISWAP_MIN_TICK ≤ tick ∧ tick ≤ UNISWAP_MAX_TICK)
    ∧ ((∃ k : ℤ, tick = (k : ℝ) * s)
        ∨ tick = UNISWAP_MIN_TICK ∨ tick = UNISWAP_MAX_TICK) := by
  have hMm : UNISWAP_MIN_TICK ≤ UNISWAP_MAX_TICK := by
    unfold UNISWAP_MIN_TICK UNISWAP_MAX_TICK; norm_num
  unfold getPriceTick at h
  by_cases h1 : price ≤ 0 ∨ s ≤ 0 ∨ d ≤ 0
  · rw [if_pos h1] at h; cases h
  · rw [if_neg h1] at h
    by_cases h2 : price / d ≤ 0
    · rw [if_pos h2] at h; cases h
    · rw [if_neg h2] at h
      set y : ℝ := (if r then (⌊rawTickOf d price / s⌋ : ℝ)
        else (⌈rawTickOf d price / s⌉ : ℝ)) * s with hy
      have htick : tick = min UNISWAP_MAX_TICK (max UNISWAP_MIN_TICK y) :=
        (Option.some.inj h).symm
      constructor
      · constructor
        · rw [htick]
          exact le_min hMm (le_max_left _ _)
        · rw [htick]
          exact min_le_left _ _
      · rcases le_total y UNISWAP_MIN_TICK with hcase | hcase
        · right; left
          rw [htick, max_eq_left hcase, min_eq_right hMm]
        · rcases le_total y UNISWAP_MAX_TICK with hcase2 | hcase2
          · left
            refine ⟨if r then ⌊rawTickOf d price / s⌋ else ⌈rawTickOf d price / s⌉, ?_⟩
            rw [htick, max_eq_right hcase, min_eq_right hcase2, hy]
            cases r <;> simp
          · right; right
            rw [htick, max_eq_right hcase, min_eq_left hcase2]

/-- Witness for claim C10 at a concrete conversion returning tick 60
with spacing 60. -/
theorem getPriceTick_range_characterization_witness :
    getPriceTick ((1.0001 : ℝ) ^ ((60 : ℤ) : ℝ) * 1) ((60 : ℤ) : ℝ) 1 true
        = some ((60 : ℤ) : ℝ)
    ∧ ((UNISWAP_MIN_TICK ≤ ((60 : ℤ) : ℝ) ∧ ((60 : ℤ) : ℝ) ≤ UNISWAP_MAX_TICK)
        ∧ ((∃ k : ℤ, ((60 : ℤ) : ℝ) = (k : ℝ) * ((60 : ℤ) : ℝ))
            ∨ ((60 : ℤ) : ℝ) = UNISWAP_MIN_TICK
            ∨ ((60 : ℤ) : ℝ) = UNISWAP_MAX_TICK)) := by
  have h := getPriceTick_exact_pow 60 1 60 1 (by norm_num) (by norm_num)
    (by norm_num) (by norm_num) (by norm_num)
  exact ⟨h, getPriceTick_range_characterization _ _ _ _ _ h⟩

/-- Evaluation of snapPriceToTick on a price given in exponential form:
for price = 1.0001 ^ x * d the snap selects a tick from x / s and clamps
it. -/
theorem snapPriceToTick_rpow (x : ℝ) {s d : ℝ} (hs : 0 < s) (hd : 0 < d) (r : Bool) :
    snapPriceToTick s d ((1.0001 : ℝ) ^ x * d) r
      = some ((1.0001 : ℝ) ^ (min UNISWAP_MAX_TICK (max UNISWAP_MIN_TICK
          ((tickSel (x / s) r : ℝ) * s))) * d) := by
  have hprice : (0 : ℝ) < (1.0001 : ℝ) ^ x * d :=
    mul_pos (Real.rpow_pos_of_pos (by norm_num) _) hd
  unfold snapPriceToTick snappedTickOf
  rw [if_neg (by push_neg; exact ⟨hprice, hs⟩),
    if_neg (not_le.mpr (div_pos hprice hd)), rawTickOf_rpow _ (ne_of_gt hd)]

/-- A price sitting exactly on an in-bounds tick boundary m * s is a
fixed point of snapPriceToTick for either rounding direction. -/
theorem snapPriceToTick_intMul (m : ℤ) {s d : ℝ} (hs : 0 < s) (hd : 0 < d)
    (r : Bool) (hlow : UNISWAP_MIN_TICK ≤ (m : ℝ) * s)
    (hhigh : (m : ℝ) * s ≤ UNISWAP_MAX_TICK) :
    snapPriceToTick s d ((1.0001 : ℝ) ^ ((m : ℝ) * s) * d) r
      = some ((1.0001 : ℝ) ^ ((m : ℝ) * s) * d) := by
  rw [snapPriceToTick_rpow ((m : ℝ) * s) hs hd r,
    mul_div_cancel_right₀ _ (ne_of_gt hs), tickSel_intCast,
    max_eq_right hlow, min_eq_right hhigh]

/-- Claim C1 as amended: snapPriceToTick is idempotent whenever the
snapped tick is not clamped, i.e. it already lies within
[UNISWAP_MIN_TICK, UNISWAP_MAX_TICK]; clamping can move the result off a
spacing multiple, after which a re-snap rounds it to a different
boundary. -/
theorem snapPriceToTick_idempotent_unclamped (s d price : ℝ) (r : Bool)
    (hs : 0 < s) (hd : 0 < d) (hp : 0 < price)
    (hlow : UNISWAP_MIN_TICK ≤ snappedTickOf s d price r)
    (hhigh : snappedTickOf s d price r ≤ UNISWAP_MAX_TICK) :
    ∀ q : ℝ, snapPriceToTick s d price r = some q → snapPriceToTick s d q r = some q := by
  intro q hq
  unfold snapPriceToTick at hq
  rw [if_neg (by push_neg; exact ⟨hp, hs⟩), if_neg (not_le.mpr (div_pos hp hd)),
    max_eq_right hlow, min_eq_right hhigh] at hq
  have hq' : (1.0001 : ℝ) ^ (snappedTickOf s d price r) * d = q := Option.some.inj hq
  have hT : snappedTickOf s d price r
      = ((tickSel (rawTickOf d price / s) r : ℤ) : ℝ) * s := rfl
  rw [← hq', hT]
  rw [hT] at hlow hhigh
  exact snapPriceToTick_intMul _ hs hd r hlow hhigh

/-- Witness for the amended claim C1 at the tick-aligned price
1.0001 ^ 120 with spacing 60: the snapped tick 120 is inside the bounds
and the snap is a fixed point. -/
theorem snapPriceToTick_idempotent_unclamped_witness :
    UNISWAP_MIN_TICK ≤ snappedTickOf 60 1 ((1.0001 : ℝ) ^ (120 : ℝ) * 1) true
    ∧ snappedTickOf 60 1 ((1.0001 : ℝ) ^ (120 : ℝ) * 1) true ≤ UNISWAP_MAX_TICK
    ∧ snapPriceToTick 60 1 ((1.0001 : ℝ) ^ (120 : ℝ) * 1) true
        = some ((1.0001 : ℝ) ^ (120 : ℝ) * 1) := by
  have hsnap : snappedTickOf 60 1 ((1.0001 : ℝ) ^ (120 : ℝ) * 1) true = 120 := by
    unfold snappedTickOf
    rw [rawTickOf_rpow _ (by norm_num),
      show (120 : ℝ) / 60 = ((2 : ℤ) : ℝ) by norm_num, tickSel_intCast]
    norm_num
  have hlow : UNISWAP_MIN_TICK ≤ snappedTickOf 60 1 ((1.0001 : ℝ) ^ (120 : ℝ) * 1) true := by
    rw [hsnap]; unfold UNISWAP_MIN_TICK; norm_num
  have hhigh : snappedTickOf 60 1 ((1.0001 : ℝ) ^ (120 : ℝ) * 1) true ≤ UNISWAP_MAX_TICK := by
    rw [hsnap]; unfold UNISWAP_MAX_TICK; norm_num
  have hfix : snapPriceToTick 60 1 ((1.0001 : ℝ) ^ (120 : ℝ) * 1) true
      = some ((1.0001 : ℝ) ^ (120 : ℝ) * 1) := by
    rw [show (120 : ℝ) = ((2 : ℤ) : ℝ) * 60 by norm_num]
    exact snapPriceToTick_intMul 2 (by norm_num) (by norm_num) true
      (by unfold UNISWAP_MIN_TICK; norm_num) (by unfold UNISWAP_MAX_TICK; norm_num)
  exact ⟨hlow, hhigh,
    snapPriceToTick_idempotent_unclamped 60 1 ((1.0001 : ℝ) ^ (120 : ℝ) * 1) true
      (by norm_num) (by norm_num)
      (mul_pos (Real.rpow_pos_of_pos (by norm_num) _) (by norm_num))
      hlow hhigh _ hfix⟩

/-- When the EPS guard fails, snap rounds down to the floor tick. -/
theorem tickSel_not_exact_floor (tf : ℝ) (h : ¬ |tf - (round tf : ℝ)| < 1e-8) :
    tickSel tf true = ⌊tf⌋ := by
  unfold tickSel
  rw [if_neg h, if_pos rfl]

/-- Claim C1 counterexample: snapPriceToTick is not idempotent for every
positive price.  With spacing 60 and decimalAdjust 1, the price
1.0001 ^ 887280 snaps exactly to tick 887280, which the clamp then moves
to 887272 — not a multiple of 60 — so the returned price is
1.0001 ^ 887272; re-snapping that price rounds 887272 / 60 down to tick
887220 and returns the different price 1.0001 ^ 887220. -/
theorem snapPriceToTick_clamp_not_idempotent :
    snapPriceToTick 60 1 ((1.0001 : ℝ) ^ (887280 : ℝ) * 1) true
      = some ((1.0001 : ℝ) ^ (887272 : ℝ) * 1)
    ∧ snapPriceToTick 60 1 ((1.0001 : ℝ) ^ (887272 : ℝ) * 1) true
      ≠ some ((1.0001 : ℝ) ^ (887272 : ℝ) * 1) := by
  constructor
  · rw [snapPriceToTick_rpow 887280 (by norm_num) (by norm_num) true,
      show (887280 : ℝ) / 60 = ((14788 : ℤ) : ℝ) by norm_num, tickSel_intCast]
    have hclamp : min UNISWAP_MAX_TICK (max UNISWAP_MIN_TICK (((14788 : ℤ) : ℝ) * 60))
        = (887272 : ℝ) := by
      unfold UNISWAP_MIN_TICK UNISWAP_MAX_TICK
      rw [max_eq_right (by norm_num), min_eq_left (by norm_num)]
    rw [hclamp]
  · have hsel : tickSel ((887272 : ℝ) / 60) true = 14787 := by
      have hround : round ((887272 : ℝ) / 60) = 14788 := by
        rw [round_eq]
        refine Int.floor_eq_iff.mpr ⟨?_, ?_⟩ <;> push_cast <;> norm_num
      have hne : ¬ |(887272 : ℝ) / 60 - (round ((887272 : ℝ) / 60) : ℝ)| < 1e-8 := by
        rw [hround, show ((14788 : ℤ) : ℝ) = (14788 : ℝ) by norm_num,
          abs_of_neg (by norm_num : (887272 : ℝ) / 60 - 14788 < 0)]
        norm_num
      rw [tickSel_not_exact_floor _ hne]
      refine Int.floor_eq_iff.mpr ⟨?_, ?_⟩ <;> push_cast <;> norm_num
    have hsnap : snapPriceToTick 60 1 ((1.0001 : ℝ) ^ (887272 : ℝ) * 1) true
        = some ((1.0001 : ℝ) ^ (887220 : ℝ) * 1) := by
      rw [snapPriceToTick_rpow 887272 (by norm_num) (by norm_num) true, hsel]
      have hclamp : min UNISWAP_MAX_TICK (max UNISWAP_MIN_TICK (((14787 : ℤ) : ℝ) * 60))
          = (887220 : ℝ) := by
        unfold UNISWAP_MIN_TICK UNISWAP_MAX_TICK
        rw [max_eq_right (by norm_num), min_eq_right (by norm_num)]
        norm_num
      rw [hclamp]
    rw [hsnap]
    intro hcontra
    have heq : (1.0001 : ℝ) ^ (887220 : ℝ) * 1 = (1.0001 : ℝ) ^ (887272 : ℝ) * 1 :=
      Option.some.inj hcontra
    rw [mul_one, mul_one] at heq
    exact absurd heq (ne_of_lt
      ((Real.rpow_lt_rpow_left_iff (by norm_num)).mpr (by norm_num)))
